import Mathlib

/-!
# Notification service (main.go): embedding and verified properties

The program is two gin handlers, `SendEmail` and `SendPushNotification`, a
configuration loader `loadConfig` and `main`.  The handlers talk to libraries
that are outside the repository (the `BindJSON` of gin, go-mail, the Firebase SDK).
Their observable outcome is supplied by a `World`; every call a handler makes
to one of them is recorded, with its arguments, in a list of `Call`s returned
beside the HTTP response.

JSON decoding follows the documented behaviour of `encoding/json` for the
struct types declared in main.go: object members are matched to struct fields
by name up to case folding, members that match no field are skipped, a field
with no member keeps its zero value, `null` leaves a field unchanged, and a
value of the wrong JSON kind is an `UnmarshalTypeError`.  None of the structs
carries a `binding` tag, so the validation step of gin after decoding accepts every
decoded value.
-/

namespace NotificationService

/-! ## Go values shared by the model -/

/-- Values of the Go type `error`, represented by their message. -/
abbrev GoError := String

/-- JSON value read by the decoder.  A number keeps its integer part and
whether the literal has a fraction or exponent part, which is all that
decoding into a Go `int` looks at. -/
inductive JSON where
  | null
  | bool (b : Bool)
  | num (int : Int) (fracOrExp : Bool)
  | str (s : String)
  | arr (items : List JSON)
  | obj (members : List (String × JSON))

/-- Name that `UnmarshalTypeError.Value` gives to a JSON value. -/
def JSON.kind : JSON → String
  | .null => "null"
  | .bool _ => "bool"
  | .num _ _ => "number"
  | .str _ => "string"
  | .arr _ => "array"
  | .obj _ => "object"

/-- What a `json.Decoder` finds in a stream: either no JSON value can be read
(empty stream, syntax error, read error), or a first JSON value is read; the
bytes after that value are not examined by `Decode`. -/
inductive Body where
  | invalid (err : GoError)
  | value (j : JSON)

/-- Case folding of one rune as done by encoding/json when it compares an
object key with a field name.  ASCII letters fold to upper case; the only
non-ASCII runes folding to an ASCII letter are U+017F (long s) and U+212A
(Kelvin sign).  Other runes are left alone: they never equal a rune of the
ASCII field names used here. -/
def foldRune (c : Char) : Char :=
  if c = Char.ofNat 0x17F then 'S'
  else if c = Char.ofNat 0x212A then 'K'
  else c.toUpper

/-- Folded form of a key. -/
def foldName (s : String) : String := String.mk (s.data.map foldRune)

/-- An object key selects the struct field whose JSON name equals it exactly
or up to case folding.  The field names of each struct in main.go are
distinct after folding, so at most one field is selected. -/
def fieldMatches (name key : String) : Bool := foldName key == foldName name

/-- The `UnmarshalTypeError` message for a value that does not fit a field. -/
def unmarshalTypeError (j : JSON) (field goType : String) : GoError :=
  "json: cannot unmarshal " ++ j.kind ++ " into Go struct field " ++ field ++
    " of type " ++ goType

/-- Keep the first error, as `decodeState.saveError` does. -/
def saveError (saved new : Option GoError) : Option GoError :=
  match saved with
  | some e => some e
  | none => new

/-- Decode a JSON value into a Go `string` field holding `cur`. -/
def decodeString (field : String) (cur : String) (j : JSON) : String × Option GoError :=
  match j with
  | .str s => (s, none)
  | .null => (cur, none)
  | _ => (cur, some (unmarshalTypeError j field "string"))

/-- Range of the Go type `int` on a 64-bit platform. -/
def intFits (n : Int) : Bool := decide (-(2 : Int) ^ 63 ≤ n) && decide (n < (2 : Int) ^ 63)

/-- Decode a JSON value into a Go `int` field holding `cur`: the literal must
be an integer without fraction or exponent, within the range of `int`. -/
def decodeInt (field : String) (cur : Int) (j : JSON) : Int × Option GoError :=
  match j with
  | .num n false => if intFits n then (n, none) else (cur, some (unmarshalTypeError j field "int"))
  | .null => (cur, none)
  | _ => (cur, some (unmarshalTypeError j field "int"))

/-! ## Types declared in main.go -/

/-- The anonymous struct of `Config.Email`. -/
structure EmailConfig where
  SMTPHost : String
  SMTPPort : Int
  Username : String
  Password : String
deriving DecidableEq, Repr

/-- The anonymous struct of `Config.Firebase`. -/
structure FirebaseConfig where
  CredentialsFile : String
deriving DecidableEq, Repr

/-- The struct type `Config`. -/
structure Config where
  Email : EmailConfig
  Firebase : FirebaseConfig
deriving DecidableEq, Repr

/-- The struct type `EmailRequest`. -/
structure EmailRequest where
  To : String
  Subject : String
  Body : String
deriving DecidableEq, Repr

/-- The struct type `PushNotificationRequest`. -/
structure PushNotificationRequest where
  Token : String
  Title : String
  Body : String
deriving DecidableEq, Repr

/-- Zero value of `Config`, the initial content of the global `config`. -/
def Config.zero : Config := ⟨⟨"", 0, "", ""⟩, ⟨""⟩⟩

/-- Zero value of `EmailRequest` (`var req EmailRequest`). -/
def EmailRequest.zero : EmailRequest := ⟨"", "", ""⟩

/-- Zero value of `PushNotificationRequest`. -/
def PushNotificationRequest.zero : PushNotificationRequest := ⟨"", "", ""⟩

/-! ## Decoding the request structs -/

/-- Decode the members of a JSON object into an `EmailRequest`, in order.  A
later member for the same field overwrites an earlier one; after a type error
decoding goes on and the first error is the one reported. -/
def decodeEmailRequestMembers :
    List (String × JSON) → EmailRequest × Option GoError → EmailRequest × Option GoError
  | [], st => st
  | (k, v) :: rest, (req, err) =>
    if fieldMatches "to" k then
      let r := decodeString "EmailRequest.to" req.To v
      decodeEmailRequestMembers rest ({ req with To := r.1 }, saveError err r.2)
    else if fieldMatches "subject" k then
      let r := decodeString "EmailRequest.subject" req.Subject v
      decodeEmailRequestMembers rest ({ req with Subject := r.1 }, saveError err r.2)
    else if fieldMatches "body" k then
      let r := decodeString "EmailRequest.body" req.Body v
      decodeEmailRequestMembers rest ({ req with Body := r.1 }, saveError err r.2)
    else decodeEmailRequestMembers rest (req, err)

/-- Decode a JSON value into `req` (an `EmailRequest`): only an object or
`null` fits a struct. -/
def decodeEmailRequest (req : EmailRequest) (j : JSON) : EmailRequest × Option GoError :=
  match j with
  | .obj members => decodeEmailRequestMembers members (req, none)
  | .null => (req, none)
  | _ => (req, some ("json: cannot unmarshal " ++ j.kind ++ " into Go value of type main.EmailRequest"))

/-- Decode the members of a JSON object into a `PushNotificationRequest`. -/
def decodePushRequestMembers :
    List (String × JSON) → PushNotificationRequest × Option GoError →
      PushNotificationRequest × Option GoError
  | [], st => st
  | (k, v) :: rest, (req, err) =>
    if fieldMatches "token" k then
      let r := decodeString "PushNotificationRequest.token" req.Token v
      decodePushRequestMembers rest ({ req with Token := r.1 }, saveError err r.2)
    else if fieldMatches "title" k then
      let r := decodeString "PushNotificationRequest.title" req.Title v
      decodePushRequestMembers rest ({ req with Title := r.1 }, saveError err r.2)
    else if fieldMatches "body" k then
      let r := decodeString "PushNotificationRequest.body" req.Body v
      decodePushRequestMembers rest ({ req with Body := r.1 }, saveError err r.2)
    else decodePushRequestMembers rest (req, err)

/-- Decode a JSON value into `req` (a `PushNotificationRequest`). -/
def decodePushRequest (req : PushNotificationRequest) (j : JSON) :
    PushNotificationRequest × Option GoError :=
  match j with
  | .obj members => decodePushRequestMembers members (req, none)
  | .null => (req, none)
  | _ => (req, some ("json: cannot unmarshal " ++ j.kind ++
      " into Go value of type main.PushNotificationRequest"))

/-- The call `c.BindJSON(&req)` of `SendEmail`: decode the request body into
the zero-valued `req`; the returned error is `none` when binding succeeds. -/
def BindJSONEmail (body : Body) : EmailRequest × Option GoError :=
  match body with
  | .invalid e => (EmailRequest.zero, some e)
  | .value j => decodeEmailRequest EmailRequest.zero j

/-- The call `c.BindJSON(&req)` of `SendPushNotification`. -/
def BindJSONPush (body : Body) : PushNotificationRequest × Option GoError :=
  match body with
  | .invalid e => (PushNotificationRequest.zero, some e)
  | .value j => decodePushRequest PushNotificationRequest.zero j

/-! ## Decoding the configuration -/

/-- Decode the members of the `email` object of config.json. -/
def decodeEmailConfigMembers :
    List (String × JSON) → EmailConfig × Option GoError → EmailConfig × Option GoError
  | [], st => st
  | (k, v) :: rest, (cfg, err) =>
    if fieldMatches "smtp_host" k then
      let r := decodeString "Config.email.smtp_host" cfg.SMTPHost v
      decodeEmailConfigMembers rest ({ cfg with SMTPHost := r.1 }, saveError err r.2)
    else if fieldMatches "smtp_port" k then
      let r := decodeInt "Config.email.smtp_port" cfg.SMTPPort v
      decodeEmailConfigMembers rest ({ cfg with SMTPPort := r.1 }, saveError err r.2)
    else if fieldMatches "username" k then
      let r := decodeString "Config.email.username" cfg.Username v
      decodeEmailConfigMembers rest ({ cfg with Username := r.1 }, saveError err r.2)
    else if fieldMatches "password" k then
      let r := decodeString "Config.email.password" cfg.Password v
      decodeEmailConfigMembers rest ({ cfg with Password := r.1 }, saveError err r.2)
    else decodeEmailConfigMembers rest (cfg, err)

/-- Decode a JSON value into the `Email` field of `Config`. -/
def decodeEmailConfig (cfg : EmailConfig) (j : JSON) : EmailConfig × Option GoError :=
  match j with
  | .obj members => decodeEmailConfigMembers members (cfg, none)
  | .null => (cfg, none)
  | _ => (cfg, some (unmarshalTypeError j "Config.email" "struct"))

/-- Decode the members of the `firebase` object of config.json. -/
def decodeFirebaseConfigMembers :
    List (String × JSON) → FirebaseConfig × Option GoError → FirebaseConfig × Option GoError
  | [], st => st
  | (k, v) :: rest, (cfg, err) =>
    if fieldMatches "credentials_file" k then
      let r := decodeString "Config.firebase.credentials_file" cfg.CredentialsFile v
      decodeFirebaseConfigMembers rest ({ cfg with CredentialsFile := r.1 }, saveError err r.2)
    else decodeFirebaseConfigMembers rest (cfg, err)

/-- Decode a JSON value into the `Firebase` field of `Config`. -/
def decodeFirebaseConfig (cfg : FirebaseConfig) (j : JSON) : FirebaseConfig × Option GoError :=
  match j with
  | .obj members => decodeFirebaseConfigMembers members (cfg, none)
  | .null => (cfg, none)
  | _ => (cfg, some (unmarshalTypeError j "Config.firebase" "struct"))

/-- Decode the members of the top-level object of config.json. -/
def decodeConfigMembers :
    List (String × JSON) → Config × Option GoError → Config × Option GoError
  | [], st => st
  | (k, v) :: rest, (cfg, err) =>
    if fieldMatches "email" k then
      let r := decodeEmailConfig cfg.Email v
      decodeConfigMembers rest ({ cfg with Email := r.1 }, saveError err r.2)
    else if fieldMatches "firebase" k then
      let r := decodeFirebaseConfig cfg.Firebase v
      decodeConfigMembers rest ({ cfg with Firebase := r.1 }, saveError err r.2)
    else decodeConfigMembers rest (cfg, err)

/-- The call `decoder.Decode(&config)`, on a JSON value that was read. -/
def decodeConfig (cfg : Config) (j : JSON) : Config × Option GoError :=
  match j with
  | .obj members => decodeConfigMembers members (cfg, none)
  | .null => (cfg, none)
  | _ => (cfg, some ("json: cannot unmarshal " ++ j.kind ++ " into Go value of type main.Config"))

/-- Function `loadConfig` of main.go.  `file` is what `os.Open("config.json")`
gives: an error, or the file, whose content the decoder then reads.  `config`
is the global variable; its new value is returned beside the error (`none`
for a nil error). -/
def loadConfig (file : Except GoError Body) (config : Config) : Config × Option GoError :=
  match file with
  | .error err => (config, some err)
  | .ok (.invalid err) => (config, some err)
  | .ok (.value j) => decodeConfig config j

/-! ## Libraries called by the handlers -/

namespace http

/-- Constant `http.StatusOK`. -/
def StatusOK : Nat := 200

/-- Constant `http.StatusBadRequest`. -/
def StatusBadRequest : Nat := 400

/-- Constant `http.StatusInternalServerError`. -/
def StatusInternalServerError : Nat := 500

end http

/-- The arguments of a `c.JSON(code, gin.H{...})` call: the HTTP status and the
map that gin writes as a JSON object in the response body. -/
structure Response where
  status : Nat
  body : List (String × String)
deriving DecidableEq, Repr

namespace mail

/-- Value of `mail.Message` as far as the handler sets it: the header map and
the body parts (content type, content). -/
structure Message where
  header : List (String × List String)
  parts : List (String × String)
deriving DecidableEq, Repr

/-- The call `mail.NewMessage()`: no header, no part. -/
def NewMessage : Message := ⟨[], []⟩

/-- The call `m.SetHeader(field, value...)`: `m.header[field] = value`. -/
def Message.SetHeader (m : Message) (field : String) (value : List String) : Message :=
  { m with header := (m.header.filter fun kv => kv.1 != field) ++ [(field, value)] }

/-- The call `m.GetHeader(field)`: `m.header[field]`, empty when the field is not set. -/
def Message.GetHeader (m : Message) (field : String) : List String :=
  match m.header.find? fun kv => kv.1 == field with
  | some kv => kv.2
  | none => []

/-- The call `m.SetBody(contentType, body)`: the message has that single part. -/
def Message.SetBody (m : Message) (contentType body : String) : Message :=
  { m with parts := [(contentType, body)] }

/-- Value of `mail.Dialer`: the fields `NewDialer` receives from its caller. -/
structure Dialer where
  Host : String
  Port : Int
  Username : String
  Password : String
deriving DecidableEq, Repr

/-- The call `mail.NewDialer(host, port, username, password)`. -/
def NewDialer (host : String) (port : Int) (username password : String) : Dialer :=
  ⟨host, port, username, password⟩

end mail

/-- Values of `option.ClientOption` built by the handler. -/
inductive ClientOption where
  | WithCredentialsFile (filename : String)
deriving DecidableEq, Repr

namespace firebase

/-- Value of `firebase.App`: the options it was created with. -/
structure App where
  opts : List ClientOption
deriving DecidableEq, Repr

end firebase

namespace messaging

/-- The struct `messaging.Notification`. -/
structure Notification where
  Title : String
  Body : String
deriving DecidableEq, Repr

/-- The struct `messaging.Message`, with the fields the handler sets. -/
structure Message where
  Token : String
  Notification : Option Notification
deriving DecidableEq, Repr

/-- Value of `messaging.Client`: the app it belongs to. -/
structure Client where
  app : firebase.App
deriving DecidableEq, Repr

end messaging

/-- Outcome of every external call, as a function of the arguments of the call.
`none` stands for a nil error. -/
structure World where
  DialAndSend : mail.Dialer → mail.Message → Option GoError
  NewApp : List ClientOption → Option GoError
  Messaging : firebase.App → Option GoError
  Send : messaging.Client → messaging.Message → Except GoError String

/-- External calls a handler makes, with their arguments. -/
inductive Call where
  | DialAndSend (d : mail.Dialer) (m : mail.Message)
  | NewApp (opts : List ClientOption)
  | Messaging (app : firebase.App)
  | Send (client : messaging.Client) (message : messaging.Message)
deriving DecidableEq, Repr

/-! ## The handlers -/

/-- Handler `SendEmail` of main.go.  Returns the response written with
`c.JSON` and the external calls made, in order. -/
def SendEmail (config : Config) (w : World) (body : Body) : Response × List Call :=
  match BindJSONEmail body with
  | (_, some _) => (⟨http.StatusBadRequest, [("error", "Invalid request")]⟩, [])
  | (req, none) =>
    let m := mail.NewMessage
    let m := m.SetHeader "From" [config.Email.Username]
    let m := m.SetHeader "To" [req.To]
    let m := m.SetHeader "Subject" [req.Subject]
    let m := m.SetBody "text/plain" req.Body
    let d := mail.NewDialer config.Email.SMTPHost config.Email.SMTPPort
      config.Email.Username config.Email.Password
    match w.DialAndSend d m with
    | some _ =>
      (⟨http.StatusInternalServerError, [("error", "Failed to send email")]⟩,
        [Call.DialAndSend d m])
    | none =>
      (⟨http.StatusOK, [("message", "Email sent successfully")]⟩, [Call.DialAndSend d m])

/-- Handler `SendPushNotification` of main.go. -/
def SendPushNotification (config : Config) (w : World) (body : Body) : Response × List Call :=
  match BindJSONPush body with
  | (_, some _) => (⟨http.StatusBadRequest, [("error", "Invalid request")]⟩, [])
  | (req, none) =>
    let opt := ClientOption.WithCredentialsFile config.Firebase.CredentialsFile
    match w.NewApp [opt] with
    | some _ =>
      (⟨http.StatusInternalServerError, [("error", "Failed to initialize Firebase app")]⟩,
        [Call.NewApp [opt]])
    | none =>
      let app : firebase.App := ⟨[opt]⟩
      match w.Messaging app with
      | some _ =>
        (⟨http.StatusInternalServerError,
            [("error", "Failed to initialize Firebase messaging client")]⟩,
          [Call.NewApp [opt], Call.Messaging app])
      | none =>
        let client : messaging.Client := ⟨app⟩
        let message : messaging.Message :=
          { Token := req.Token, Notification := some { Title := req.Title, Body := req.Body } }
        match w.Send client message with
        | .error _ =>
          (⟨http.StatusInternalServerError, [("error", "Failed to send push notification")]⟩,
            [Call.NewApp [opt], Call.Messaging app, Call.Send client message])
        | .ok _ =>
          (⟨http.StatusOK, [("message", "Push notification sent successfully")]⟩,
            [Call.NewApp [opt], Call.Messaging app, Call.Send client message])

/-! ## main and the server -/

/-- The two handler functions that `main` can register. -/
inductive HandlerFunc where
  | SendEmail
  | SendPushNotification
deriving DecidableEq, Repr

/-- A route added to the gin engine. -/
structure Route where
  method : String
  path : String
  handler : HandlerFunc
deriving DecidableEq, Repr

/-- What `main` has done when it returns or blocks in `r.Run`: the lines
printed, the routes registered, the address served (if the server was
started) and the value of the global `config`. -/
structure Process where
  stdout : List String
  routes : List Route
  listen : Option String
  config : Config
deriving DecidableEq, Repr

/-- Function `main` of main.go. -/
def main (file : Except GoError Body) : Process :=
  match loadConfig file Config.zero with
  | (config, some err) =>
    { stdout := ["Error loading config: " ++ err], routes := [], listen := none, config := config }
  | (config, none) =>
    { stdout := []
      routes := [⟨"POST", "/send-email", .SendEmail⟩, ⟨"POST", "/send-push", .SendPushNotification⟩]
      listen := some ":8080"
      config := config }

/-- An inbound HTTP request. -/
structure Request where
  method : String
  path : String
  body : Body

/-- Run a registered handler function. -/
def HandlerFunc.run (h : HandlerFunc) (config : Config) (w : World) (body : Body) :
    Response × List Call :=
  match h with
  | .SendEmail => NotificationService.SendEmail config w body
  | .SendPushNotification => NotificationService.SendPushNotification config w body

/-- The handler run for a request, with its result: none when the server was
not started or no route has the method and path of the request (the router then
answers by itself). -/
def Process.dispatch (p : Process) (w : World) (r : Request) : Option (Response × List Call) :=
  match p.listen with
  | none => none
  | some _ =>
    match p.routes.find? fun rt => rt.method == r.method && rt.path == r.path with
    | none => none
    | some rt => some (rt.handler.run p.config w r.body)

/-- All external calls made by the process while the given requests arrive. -/
def Process.externalCalls (p : Process) (w : World) : List Request → List Call
  | [] => []
  | r :: rest =>
    (match p.dispatch w r with
      | some res => res.2
      | none => []) ++ p.externalCalls w rest

/-! ## Vocabulary of the properties -/

/-- The error a recorded call returns in world `w` (`none`: it succeeds). -/
def World.errorOf (w : World) : Call → Option GoError
  | .DialAndSend d m => w.DialAndSend d m
  | .NewApp opts => w.NewApp opts
  | .Messaging app => w.Messaging app
  | .Send client message =>
    match w.Send client message with
    | .error e => some e
    | .ok _ => none

/-- The fallible steps of the handlers after decoding. -/
inductive Step where
  | dialAndSend
  | newApp
  | messagingClient
  | send
deriving DecidableEq, Repr

/-- The step a recorded call belongs to. -/
def Call.step : Call → Step
  | .DialAndSend _ _ => .dialAndSend
  | .NewApp _ => .newApp
  | .Messaging _ => .messagingClient
  | .Send _ _ => .send

/-- The message `SendEmail` has built when it reaches `DialAndSend`. -/
def emailMessage (config : Config) (req : EmailRequest) : mail.Message :=
  (((mail.NewMessage.SetHeader "From" [config.Email.Username]).SetHeader "To" [req.To]).SetHeader
    "Subject" [req.Subject]).SetBody "text/plain" req.Body

/-- The dialer `SendEmail` builds from the configuration. -/
def emailDialer (config : Config) : mail.Dialer :=
  mail.NewDialer config.Email.SMTPHost config.Email.SMTPPort config.Email.Username
    config.Email.Password

/-- The client option `SendPushNotification` builds from the configuration. -/
def pushOption (config : Config) : ClientOption :=
  ClientOption.WithCredentialsFile config.Firebase.CredentialsFile

/-- The message `SendPushNotification` passes to `client.Send`. -/
def pushMessage (req : PushNotificationRequest) : messaging.Message :=
  { Token := req.Token, Notification := some { Title := req.Title, Body := req.Body } }

/-- A JSON value that decodes into a Go `string` without error. -/
def fitsString : JSON → Bool
  | .str _ => true
  | .null => true
  | _ => false

/-- A JSON value that decodes into a Go `int` without error. -/
def fitsInt : JSON → Bool
  | .num n false => intFits n
  | .null => true
  | _ => false

/-- An object member that is decoded into one of the string fields `fields`
and does not hold a string (or null). -/
def wrongKindMember (fields : List String) (kv : String × JSON) : Bool :=
  (fields.any fun f => fieldMatches f kv.1) && !fitsString kv.2

/-- Request bodies that cannot be bound to a struct whose fields, all strings,
have the JSON names `fields`: no JSON value can be read, the value is neither
an object nor null, or a member decoded into a field has the wrong kind. -/
def undecodable (fields : List String) : Body → Bool
  | .invalid _ => true
  | .value (.obj members) => members.any (wrongKindMember fields)
  | .value .null => false
  | .value _ => true

/-- The value of the first member named `name`. -/
def member? (name : String) (members : List (String × JSON)) : Option JSON :=
  (members.find? fun kv => kv.1 == name).map fun kv => kv.2

/-- A member named `name` that holds a string. -/
def hasStringMember (name : String) (members : List (String × JSON)) : Bool :=
  match member? name members with
  | some (.str _) => true
  | _ => false

/-- Malformed request bodies as the specification counts them ("malformed
JSON bodies (missing fields, wrong types)") for a request with the string
fields `fields`: anything but a JSON object holding a string for every
field. -/
def specMalformed (fields : List String) : Body → Bool
  | .value (.obj members) => !(fields.all fun f => hasStringMember f members)
  | _ => true

/-- The `email` object of config.json decodes without error. -/
def fitsEmailConfig : JSON → Bool
  | .obj members => members.all fun kv =>
      if fieldMatches "smtp_host" kv.1 then fitsString kv.2
      else if fieldMatches "smtp_port" kv.1 then fitsInt kv.2
      else if fieldMatches "username" kv.1 then fitsString kv.2
      else if fieldMatches "password" kv.1 then fitsString kv.2
      else true
  | .null => true
  | _ => false

/-- The `firebase` object of config.json decodes without error. -/
def fitsFirebaseConfig : JSON → Bool
  | .obj members => members.all fun kv =>
      if fieldMatches "credentials_file" kv.1 then fitsString kv.2 else true
  | .null => true
  | _ => false

/-- The content of config.json decodes into `Config` without error: every
value that is decoded into a member of `Config` has a kind that member
accepts.  Members that are absent are not asked for. -/
def fitsConfig : JSON → Bool
  | .obj members => members.all fun kv =>
      if fieldMatches "email" kv.1 then fitsEmailConfig kv.2
      else if fieldMatches "firebase" kv.1 then fitsFirebaseConfig kv.2
      else true
  | .null => true
  | _ => false

/-- A member named `name` that holds an integer number. -/
def hasIntMember (name : String) (members : List (String × JSON)) : Bool :=
  match member? name members with
  | some (.num _ false) => true
  | _ => false

/-- The shape of config.json as the specification gives it:
an object with an `email` object holding `smtp_host`, `smtp_port`, `username`
and `password`, and a `firebase` object holding `credentials_file`. -/
def specConfigShape : JSON → Bool
  | .obj members =>
    (match member? "email" members with
      | some (.obj e) =>
        hasStringMember "smtp_host" e && hasIntMember "smtp_port" e &&
          hasStringMember "username" e && hasStringMember "password" e
      | _ => false) &&
    (match member? "firebase" members with
      | some (.obj f) => hasStringMember "credentials_file" f
      | _ => false)
  | _ => false

/-- A world in which every external call succeeds. -/
def World.allSucceed : World :=
  { DialAndSend := fun _ _ => none
    NewApp := fun _ => none
    Messaging := fun _ => none
    Send := fun _ _ => .ok "projects/p/messages/1" }

/-- A world in which the SMTP dial-and-send fails with `e`. -/
def World.smtpFails (e : GoError) : World :=
  { World.allSucceed with DialAndSend := fun _ _ => some e }

/-- A world in which `firebase.NewApp` fails with `e`. -/
def World.newAppFails (e : GoError) : World :=
  { World.allSucceed with NewApp := fun _ => some e }

/-- A world in which `app.Messaging` fails with `e`. -/
def World.messagingFails (e : GoError) : World :=
  { World.allSucceed with Messaging := fun _ => some e }

/-- A world in which `client.Send` fails with `e`. -/
def World.sendFails (e : GoError) : World :=
  { World.allSucceed with Send := fun _ _ => .error e }

/-- A configuration used in the examples. -/
def exampleConfig : Config :=
  ⟨⟨"smtp.example.com", 587, "noreply@example.com", "secret"⟩, ⟨"serviceAccount.json"⟩⟩

/-- The email request body of the scenario in the specification. -/
def emailScenarioBody : Body :=
  .value (.obj [("to", .str "a@b.com"), ("subject", .str "Hi"), ("body", .str "Test")])

/-- The push request body of the scenario in the specification. -/
def pushScenarioBody : Body :=
  .value (.obj [("token", .str "abc"), ("title", .str "T"), ("body", .str "B")])

/-! ## Lemmas on the handlers -/

theorem SendEmail_of_decoded (config : Config) (w : World) (body : Body) (req : EmailRequest)
    (h : BindJSONEmail body = (req, none)) :
    SendEmail config w body =
      match w.DialAndSend (emailDialer config) (emailMessage config req) with
      | some _ =>
        (⟨500, [("error", "Failed to send email")]⟩,
          [Call.DialAndSend (emailDialer config) (emailMessage config req)])
      | none =>
        (⟨200, [("message", "Email sent successfully")]⟩,
          [Call.DialAndSend (emailDialer config) (emailMessage config req)]) := by
  simp only [SendEmail, h]
  rfl

theorem SendEmail_of_bind_error (config : Config) (w : World) (body : Body)
    (h : (BindJSONEmail body).2.isSome = true) :
    SendEmail config w body = (⟨400, [("error", "Invalid request")]⟩, []) := by
  unfold SendEmail
  rcases hb : BindJSONEmail body with ⟨req, _ | e⟩
  · rw [hb] at h; simp at h
  · rfl

theorem emailMessage_headers (config : Config) (req : EmailRequest) :
    (emailMessage config req).GetHeader "From" = [config.Email.Username] ∧
    (emailMessage config req).GetHeader "To" = [req.To] ∧
    (emailMessage config req).GetHeader "Subject" = [req.Subject] ∧
    (emailMessage config req).parts = [("text/plain", req.Body)] := by
  refine ⟨?_, ?_, ?_, ?_⟩ <;>
    simp [emailMessage, mail.NewMessage, mail.Message.SetHeader, mail.Message.SetBody,
      mail.Message.GetHeader, List.filter, List.find?]

theorem SendPushNotification_of_decoded (config : Config) (w : World) (body : Body)
    (req : PushNotificationRequest) (h : BindJSONPush body = (req, none)) :
    SendPushNotification config w body =
      match w.NewApp [pushOption config] with
      | some _ =>
        (⟨500, [("error", "Failed to initialize Firebase app")]⟩,
          [Call.NewApp [pushOption config]])
      | none =>
        match w.Messaging ⟨[pushOption config]⟩ with
        | some _ =>
          (⟨500, [("error", "Failed to initialize Firebase messaging client")]⟩,
            [Call.NewApp [pushOption config], Call.Messaging ⟨[pushOption config]⟩])
        | none =>
          match w.Send ⟨⟨[pushOption config]⟩⟩ (pushMessage req) with
          | .error _ =>
            (⟨500, [("error", "Failed to send push notification")]⟩,
              [Call.NewApp [pushOption config], Call.Messaging ⟨[pushOption config]⟩,
                Call.Send ⟨⟨[pushOption config]⟩⟩ (pushMessage req)])
          | .ok _ =>
            (⟨200, [("message", "Push notification sent successfully")]⟩,
              [Call.NewApp [pushOption config], Call.Messaging ⟨[pushOption config]⟩,
                Call.Send ⟨⟨[pushOption config]⟩⟩ (pushMessage req)]) := by
  simp only [SendPushNotification, h]
  rfl

theorem SendPushNotification_of_bind_error (config : Config) (w : World) (body : Body)
    (h : (BindJSONPush body).2.isSome = true) :
    SendPushNotification config w body = (⟨400, [("error", "Invalid request")]⟩, []) := by
  unfold SendPushNotification
  rcases hb : BindJSONPush body with ⟨req, _ | e⟩
  · rw [hb] at h; simp at h
  · rfl

/-! ## Lemmas on decoding -/

theorem saveError_isSome (saved new : Option GoError) :
    (saveError saved new).isSome = (saved.isSome || new.isSome) := by
  cases saved <;> simp [saveError]

theorem decodeString_error (field cur : String) (j : JSON) :
    (decodeString field cur j).2.isSome = !fitsString j := by
  cases j <;> simp [decodeString, fitsString]

theorem decodeInt_error (field : String) (cur : Int) (j : JSON) :
    (decodeInt field cur j).2.isSome = !fitsInt j := by
  cases j with
  | num n f =>
    cases f
    · by_cases hn : intFits n = true <;> simp [decodeInt, fitsInt, hn]
    · simp [decodeInt, fitsInt]
  | _ => simp [decodeInt, fitsInt]

theorem decodeEmailRequestMembers_error (members : List (String × JSON)) (req : EmailRequest)
    (err : Option GoError) :
    (decodeEmailRequestMembers members (req, err)).2.isSome =
      (err.isSome || members.any (wrongKindMember ["to", "subject", "body"])) := by
  induction members generalizing req err with
  | nil => simp [decodeEmailRequestMembers]
  | cons kv rest ih =>
    obtain ⟨k, v⟩ := kv
    unfold decodeEmailRequestMembers
    by_cases h1 : fieldMatches "to" k = true
    · simp [h1, ih, saveError_isSome, decodeString_error, wrongKindMember, Bool.or_assoc]
    · by_cases h2 : fieldMatches "subject" k = true
      · simp [h1, h2, ih, saveError_isSome, decodeString_error, wrongKindMember, Bool.or_assoc]
      · by_cases h3 : fieldMatches "body" k = true
        · simp [h1, h2, h3, ih, saveError_isSome, decodeString_error, wrongKindMember,
            Bool.or_assoc]
        · simp [h1, h2, h3, ih, wrongKindMember]

theorem decodePushRequestMembers_error (members : List (String × JSON))
    (req : PushNotificationRequest) (err : Option GoError) :
    (decodePushRequestMembers members (req, err)).2.isSome =
      (err.isSome || members.any (wrongKindMember ["token", "title", "body"])) := by
  induction members generalizing req err with
  | nil => simp [decodePushRequestMembers]
  | cons kv rest ih =>
    obtain ⟨k, v⟩ := kv
    unfold decodePushRequestMembers
    by_cases h1 : fieldMatches "token" k = true
    · simp [h1, ih, saveError_isSome, decodeString_error, wrongKindMember, Bool.or_assoc]
    · by_cases h2 : fieldMatches "title" k = true
      · simp [h1, h2, ih, saveError_isSome, decodeString_error, wrongKindMember, Bool.or_assoc]
      · by_cases h3 : fieldMatches "body" k = true
        · simp [h1, h2, h3, ih, saveError_isSome, decodeString_error, wrongKindMember,
            Bool.or_assoc]
        · simp [h1, h2, h3, ih, wrongKindMember]

theorem BindJSONEmail_error (body : Body) :
    (BindJSONEmail body).2.isSome = undecodable ["to", "subject", "body"] body := by
  cases body with
  | invalid e => simp [BindJSONEmail, undecodable]
  | value j =>
    cases j <;>
      simp [BindJSONEmail, decodeEmailRequest, undecodable, decodeEmailRequestMembers_error]

theorem BindJSONPush_error (body : Body) :
    (BindJSONPush body).2.isSome = undecodable ["token", "title", "body"] body := by
  cases body with
  | invalid e => simp [BindJSONPush, undecodable]
  | value j =>
    cases j <;>
      simp [BindJSONPush, decodePushRequest, undecodable, decodePushRequestMembers_error]

theorem decodeEmailConfigMembers_error (members : List (String × JSON)) (cfg : EmailConfig)
    (err : Option GoError) :
    (decodeEmailConfigMembers members (cfg, err)).2.isSome =
      (err.isSome || !fitsEmailConfig (.obj members)) := by
  induction members generalizing cfg err with
  | nil => simp [decodeEmailConfigMembers, fitsEmailConfig]
  | cons kv rest ih =>
    obtain ⟨k, v⟩ := kv
    unfold decodeEmailConfigMembers
    simp only [fitsEmailConfig] at ih
    by_cases h1 : fieldMatches "smtp_host" k = true
    · simp [h1, ih, saveError_isSome, decodeString_error, fitsEmailConfig, Bool.or_assoc]
    · by_cases h2 : fieldMatches "smtp_port" k = true
      · simp [h1, h2, ih, saveError_isSome, decodeInt_error, fitsEmailConfig, Bool.or_assoc]
      · by_cases h3 : fieldMatches "username" k = true
        · simp [h1, h2, h3, ih, saveError_isSome, decodeString_error, fitsEmailConfig,
            Bool.or_assoc]
        · by_cases h4 : fieldMatches "password" k = true
          · simp [h1, h2, h3, h4, ih, saveError_isSome, decodeString_error, fitsEmailConfig,
              Bool.or_assoc]
          · simp [h1, h2, h3, h4, ih, fitsEmailConfig]

theorem decodeEmailConfig_error (cfg : EmailConfig) (j : JSON) :
    (decodeEmailConfig cfg j).2.isSome = !fitsEmailConfig j := by
  cases j with
  | obj members => simp [decodeEmailConfig, decodeEmailConfigMembers_error]
  | _ => simp [decodeEmailConfig, fitsEmailConfig]

theorem decodeFirebaseConfigMembers_error (members : List (String × JSON))
    (cfg : FirebaseConfig) (err : Option GoError) :
    (decodeFirebaseConfigMembers members (cfg, err)).2.isSome =
      (err.isSome || !fitsFirebaseConfig (.obj members)) := by
  induction members generalizing cfg err with
  | nil => simp [decodeFirebaseConfigMembers, fitsFirebaseConfig]
  | cons kv rest ih =>
    obtain ⟨k, v⟩ := kv
    unfold decodeFirebaseConfigMembers
    simp only [fitsFirebaseConfig] at ih
    by_cases h1 : fieldMatches "credentials_file" k = true
    · simp [h1, ih, saveError_isSome, decodeString_error, fitsFirebaseConfig, Bool.or_assoc]
    · simp [h1, ih, fitsFirebaseConfig]

theorem decodeFirebaseConfig_error (cfg : FirebaseConfig) (j : JSON) :
    (decodeFirebaseConfig cfg j).2.isSome = !fitsFirebaseConfig j := by
  cases j with
  | obj members => simp [decodeFirebaseConfig, decodeFirebaseConfigMembers_error]
  | _ => simp [decodeFirebaseConfig, fitsFirebaseConfig]

theorem decodeConfigMembers_error (members : List (String × JSON)) (cfg : Config)
    (err : Option GoError) :
    (decodeConfigMembers members (cfg, err)).2.isSome =
      (err.isSome || !fitsConfig (.obj members)) := by
  induction members generalizing cfg err with
  | nil => simp [decodeConfigMembers, fitsConfig]
  | cons kv rest ih =>
    obtain ⟨k, v⟩ := kv
    unfold decodeConfigMembers
    simp only [fitsConfig] at ih
    by_cases h1 : fieldMatches "email" k = true
    · simp [h1, ih, saveError_isSome, decodeEmailConfig_error, fitsConfig, Bool.or_assoc]
    · by_cases h2 : fieldMatches "firebase" k = true
      · simp [h1, h2, ih, saveError_isSome, decodeFirebaseConfig_error, fitsConfig,
          Bool.or_assoc]
      · simp [h1, h2, ih, fitsConfig]

theorem decodeConfig_error (cfg : Config) (j : JSON) :
    (decodeConfig cfg j).2.isSome = !fitsConfig j := by
  cases j with
  | obj members => simp [decodeConfig, decodeConfigMembers_error]
  | _ => simp [decodeConfig, fitsConfig]

/-- The server of a process that did not start listening runs no handler and
makes no external call. -/
theorem externalCalls_of_not_listening (p : Process) (w : World) (reqs : List Request)
    (h : p.listen = none) : p.externalCalls w reqs = [] := by
  induction reqs with
  | nil => rfl
  | cons r rest ih => simp [Process.externalCalls, Process.dispatch, h, ih]

theorem main_of_loadConfig_error (file : Except GoError Body)
    (h : (loadConfig file Config.zero).2.isSome = true) :
    (main file).routes = [] ∧ (main file).listen = none := by
  unfold main
  rcases hl : loadConfig file Config.zero with ⟨cfg, _ | e⟩
  · rw [hl] at h; simp at h
  · simp

theorem errorOf_allSucceed (c : Call) : World.allSucceed.errorOf c = none := by
  cases c <;> rfl

/-- After a successful decode, a failed call of `SendPushNotification` fixes
the response: it is the literal of the step the call belongs to. -/
theorem SendPushNotification_failed_call (config : Config) (w : World) (body : Body)
    (req : PushNotificationRequest) (hdecode : BindJSONPush body = (req, none))
    (c : Call) (e : GoError) (hc : c ∈ (SendPushNotification config w body).2)
    (hf : w.errorOf c = some e) :
    (c.step = .newApp ∧ (SendPushNotification config w body).1 =
        ⟨500, [("error", "Failed to initialize Firebase app")]⟩) ∨
    (c.step = .messagingClient ∧ (SendPushNotification config w body).1 =
        ⟨500, [("error", "Failed to initialize Firebase messaging client")]⟩) ∨
    (c.step = .send ∧ (SendPushNotification config w body).1 =
        ⟨500, [("error", "Failed to send push notification")]⟩) := by
  rw [SendPushNotification_of_decoded config w body req hdecode] at hc ⊢
  cases h1 : w.NewApp [pushOption config] with
  | some e1 =>
    simp only [h1, List.mem_singleton] at hc ⊢
    subst hc
    simp [Call.step]
  | none =>
    cases h2 : w.Messaging ⟨[pushOption config]⟩ with
    | some e2 =>
      simp only [h1, h2, List.mem_cons, List.mem_singleton, List.not_mem_nil, or_false] at hc ⊢
      rcases hc with hc | hc
      · subst hc; simp [World.errorOf, h1] at hf
      · subst hc; simp [Call.step]
    | none =>
      cases h3 : w.Send ⟨⟨[pushOption config]⟩⟩ (pushMessage req) with
      | error e3 =>
        simp only [h1, h2, h3, List.mem_cons, List.mem_singleton, List.not_mem_nil,
          or_false] at hc ⊢
        rcases hc with hc | hc | hc
        · subst hc; simp [World.errorOf, h1] at hf
        · subst hc; simp [World.errorOf, h2] at hf
        · subst hc; simp [Call.step]
      | ok id =>
        simp only [h1, h2, h3, List.mem_cons, List.mem_singleton, List.not_mem_nil,
          or_false] at hc ⊢
        rcases hc with hc | hc | hc
        · subst hc; simp [World.errorOf, h1] at hf
        · subst hc; simp [World.errorOf, h2] at hf
        · subst hc; simp [World.errorOf, h3] at hf

/-! ## The claims -/

/-- C1: for a request body that decodes into an `EmailRequest` and any
configuration, if the SMTP dial-and-send succeeds then `SendEmail` answers 200
with `message: Email sent successfully`, and it hands exactly one message to
the SMTP layer, whose To, Subject and text/plain body are those of the request
and whose From is the configured username. -/
theorem SendEmail_success (config : Config) (w : World) (body : Body) (req : EmailRequest)
    (hdecode : BindJSONEmail body = (req, none))
    (hsend : ∀ c ∈ (SendEmail config w body).2, w.errorOf c = none) :
    (SendEmail config w body).1 = ⟨200, [("message", "Email sent successfully")]⟩ ∧
    ∃ d m, (SendEmail config w body).2 = [Call.DialAndSend d m] ∧
      m.GetHeader "To" = [req.To] ∧ m.GetHeader "Subject" = [req.Subject] ∧
      m.parts = [("text/plain", req.Body)] ∧ m.GetHeader "From" = [config.Email.Username] := by
  have hm := emailMessage_headers config req
  rw [SendEmail_of_decoded config w body req hdecode] at hsend ⊢
  cases hw : w.DialAndSend (emailDialer config) (emailMessage config req) with
  | some e =>
    have := hsend (Call.DialAndSend (emailDialer config) (emailMessage config req))
      (by simp [hw])
    simp [World.errorOf, hw] at this
  | none =>
    exact ⟨rfl, _, _, rfl, hm.2.1, hm.2.2.1, hm.2.2.2, hm.1⟩

/-- C1 at the scenario of the specification: body `to: a@b.com, subject: Hi, body: Test`
with a working SMTP relay. -/
theorem SendEmail_success_witness :
    BindJSONEmail emailScenarioBody = (⟨"a@b.com", "Hi", "Test"⟩, none) ∧
    (SendEmail exampleConfig World.allSucceed emailScenarioBody).1 =
      ⟨200, [("message", "Email sent successfully")]⟩ ∧
    ∃ d m, (SendEmail exampleConfig World.allSucceed emailScenarioBody).2 =
        [Call.DialAndSend d m] ∧
      m.GetHeader "To" = ["a@b.com"] ∧ m.GetHeader "Subject" = ["Hi"] ∧
      m.parts = [("text/plain", "Test")] ∧ m.GetHeader "From" = ["noreply@example.com"] :=
  ⟨by decide,
    SendEmail_success exampleConfig World.allSucceed emailScenarioBody ⟨"a@b.com", "Hi", "Test"⟩
      (by decide) (fun c _ => errorOf_allSucceed c)⟩

/-- C2 as stated fails: a JSON object with a missing field is malformed in the
sense of the specification, yet both handlers bind it (the missing fields are empty
strings), answer 200 when the external calls succeed, and make those calls. -/
theorem missing_field_is_not_rejected :
    specMalformed ["to", "subject", "body"] (.value (.obj [("to", .str "a@b.com")])) = true ∧
    SendEmail exampleConfig World.allSucceed (.value (.obj [("to", .str "a@b.com")])) =
      (⟨200, [("message", "Email sent successfully")]⟩,
        [Call.DialAndSend (emailDialer exampleConfig)
          (emailMessage exampleConfig ⟨"a@b.com", "", ""⟩)]) ∧
    specMalformed ["token", "title", "body"] (.value (.obj [("token", .str "abc")])) = true ∧
    SendPushNotification exampleConfig World.allSucceed (.value (.obj [("token", .str "abc")])) =
      (⟨200, [("message", "Push notification sent successfully")]⟩,
        [Call.NewApp [pushOption exampleConfig], Call.Messaging ⟨[pushOption exampleConfig]⟩,
          Call.Send ⟨⟨[pushOption exampleConfig]⟩⟩ (pushMessage ⟨"abc", "", ""⟩)]) := by
  decide

/-- C2, amended: a request body that cannot be bound (no JSON value can be
read from it, the value is neither an object nor null, or a member decoded
into a field holds a number, boolean, array or object) gets status 400 from
either handler, and no external call is made. -/
theorem undecodable_body_rejected (config : Config) (w : World) (body : Body) :
    (undecodable ["to", "subject", "body"] body = true →
      SendEmail config w body = (⟨400, [("error", "Invalid request")]⟩, [])) ∧
    (undecodable ["token", "title", "body"] body = true →
      SendPushNotification config w body = (⟨400, [("error", "Invalid request")]⟩, [])) := by
  constructor
  · intro h
    exact SendEmail_of_bind_error config w body (by rw [BindJSONEmail_error]; exact h)
  · intro h
    exact SendPushNotification_of_bind_error config w body (by rw [BindJSONPush_error]; exact h)

/-- C2 amended, at bodies with a field of the wrong type and at a body that is
not JSON. -/
theorem undecodable_body_rejected_witness :
    (SendEmail exampleConfig World.allSucceed
        (.value (.obj [("to", .num 5 false), ("subject", .str "Hi"), ("body", .str "Test")])) =
      (⟨400, [("error", "Invalid request")]⟩, [])) ∧
    (SendPushNotification exampleConfig World.allSucceed
        (.value (.obj [("token", .str "abc"), ("title", .arr []), ("body", .str "B")])) =
      (⟨400, [("error", "Invalid request")]⟩, [])) ∧
    (SendEmail exampleConfig World.allSucceed (.invalid "unexpected EOF") =
      (⟨400, [("error", "Invalid request")]⟩, [])) :=
  ⟨(undecodable_body_rejected exampleConfig World.allSucceed _).1 (by decide),
    (undecodable_body_rejected exampleConfig World.allSucceed _).2 (by decide),
    (undecodable_body_rejected exampleConfig World.allSucceed _).1 (by decide)⟩

/-- C3: for a request body that decodes, if the SMTP dial-and-send fails then
`SendEmail` answers 500 with `error: Failed to send email`; two failing runs
with the same request and configuration and different underlying errors get
the same status and body. -/
theorem SendEmail_failure_hides_error (config : Config) (w₁ w₂ : World) (body : Body)
    (req : EmailRequest) (hdecode : BindJSONEmail body = (req, none))
    (c₁ c₂ : Call) (e₁ e₂ : GoError)
    (h₁ : c₁ ∈ (SendEmail config w₁ body).2) (hf₁ : w₁.errorOf c₁ = some e₁)
    (h₂ : c₂ ∈ (SendEmail config w₂ body).2) (hf₂ : w₂.errorOf c₂ = some e₂) :
    (SendEmail config w₁ body).1 = ⟨500, [("error", "Failed to send email")]⟩ ∧
    (SendEmail config w₂ body).1 = (SendEmail config w₁ body).1 := by
  have key : ∀ (w : World) (c : Call) (e : GoError), c ∈ (SendEmail config w body).2 →
      w.errorOf c = some e →
      (SendEmail config w body).1 = ⟨500, [("error", "Failed to send email")]⟩ := by
    intro w c e hc hf
    rw [SendEmail_of_decoded config w body req hdecode] at hc ⊢
    cases hw : w.DialAndSend (emailDialer config) (emailMessage config req) with
    | some e0 => rfl
    | none =>
      simp only [hw, List.mem_singleton] at hc
      subst hc
      simp [World.errorOf, hw] at hf
  rw [key w₁ c₁ e₁ h₁ hf₁, key w₂ c₂ e₂ h₂ hf₂]
  exact ⟨rfl, rfl⟩

/-- C3 at the scenario body, with a refused connection in one run and a failed
authentication in the other. -/
theorem SendEmail_failure_hides_error_witness :
    (SendEmail exampleConfig (World.smtpFails "dial tcp: connection refused")
        emailScenarioBody).1 = ⟨500, [("error", "Failed to send email")]⟩ ∧
    (SendEmail exampleConfig (World.smtpFails "535 authentication failed")
        emailScenarioBody).1 =
      (SendEmail exampleConfig (World.smtpFails "dial tcp: connection refused")
        emailScenarioBody).1 :=
  SendEmail_failure_hides_error exampleConfig (World.smtpFails "dial tcp: connection refused")
    (World.smtpFails "535 authentication failed") emailScenarioBody ⟨"a@b.com", "Hi", "Test"⟩
    (by decide)
    (Call.DialAndSend (emailDialer exampleConfig) (emailMessage exampleConfig ⟨"a@b.com", "Hi", "Test"⟩))
    (Call.DialAndSend (emailDialer exampleConfig) (emailMessage exampleConfig ⟨"a@b.com", "Hi", "Test"⟩))
    "dial tcp: connection refused" "535 authentication failed"
    (by decide) rfl (by decide) rfl

/-- C4: for a request body that decodes into a `PushNotificationRequest`, a
failure of app initialisation, of messaging-client creation or of the provider
send gives status 500 and one of three fixed bodies; two runs that fail at the
same step with different underlying errors get the same response; when app
initialisation fails the body is `error: Failed to initialize Firebase app`. -/
theorem SendPushNotification_failure_hides_error (config : Config) (w₁ w₂ : World)
    (body : Body) (req : PushNotificationRequest) (hdecode : BindJSONPush body = (req, none))
    (c₁ c₂ : Call) (e₁ e₂ : GoError)
    (h₁ : c₁ ∈ (SendPushNotification config w₁ body).2) (hf₁ : w₁.errorOf c₁ = some e₁)
    (h₂ : c₂ ∈ (SendPushNotification config w₂ body).2) (hf₂ : w₂.errorOf c₂ = some e₂)
    (hstep : c₁.step = c₂.step) :
    (SendPushNotification config w₁ body).1.status = 500 ∧
    (SendPushNotification config w₂ body).1 = (SendPushNotification config w₁ body).1 ∧
    ((SendPushNotification config w₁ body).1.body =
        [("error", "Failed to initialize Firebase app")] ∨
      (SendPushNotification config w₁ body).1.body =
        [("error", "Failed to initialize Firebase messaging client")] ∨
      (SendPushNotification config w₁ body).1.body =
        [("error", "Failed to send push notification")]) ∧
    (c₁.step = .newApp → (SendPushNotification config w₁ body).1 =
      ⟨500, [("error", "Failed to initialize Firebase app")]⟩) := by
  have k₁ := SendPushNotification_failed_call config w₁ body req hdecode c₁ e₁ h₁ hf₁
  have k₂ := SendPushNotification_failed_call config w₂ body req hdecode c₂ e₂ h₂ hf₂
  rw [hstep] at k₁
  rcases k₁ with ⟨s₁, r₁⟩ | ⟨s₁, r₁⟩ | ⟨s₁, r₁⟩ <;>
    rcases k₂ with ⟨s₂, r₂⟩ | ⟨s₂, r₂⟩ | ⟨s₂, r₂⟩ <;>
    simp_all

/-- C4 with a missing credentials file reported by app initialisation in one
run and an invalid one in the other. -/
theorem SendPushNotification_failure_hides_error_witness :
    (SendPushNotification exampleConfig (World.newAppFails "open serviceAccount.json: no such file")
        pushScenarioBody).1.status = 500 ∧
    (SendPushNotification exampleConfig (World.newAppFails "invalid character in credentials")
        pushScenarioBody).1 =
      (SendPushNotification exampleConfig
        (World.newAppFails "open serviceAccount.json: no such file") pushScenarioBody).1 ∧
    (SendPushNotification exampleConfig (World.newAppFails "open serviceAccount.json: no such file")
        pushScenarioBody).1 = ⟨500, [("error", "Failed to initialize Firebase app")]⟩ :=
  have h := SendPushNotification_failure_hides_error exampleConfig
    (World.newAppFails "open serviceAccount.json: no such file")
    (World.newAppFails "invalid character in credentials") pushScenarioBody ⟨"abc", "T", "B"⟩
    (by decide) (Call.NewApp [pushOption exampleConfig]) (Call.NewApp [pushOption exampleConfig])
    "open serviceAccount.json: no such file" "invalid character in credentials"
    (by decide) rfl (by decide) rfl rfl
  ⟨h.1, h.2.1, h.2.2.2 rfl⟩

/-- C5: for a request body that decodes into a `PushNotificationRequest`, if
app initialisation, messaging-client creation and the provider send all
succeed then the handler answers 200 with
`message: Push notification sent successfully`, and the single message passed
to the provider send has the token, title and body of the request. -/
theorem SendPushNotification_success (config : Config) (w : World) (body : Body)
    (req : PushNotificationRequest) (hdecode : BindJSONPush body = (req, none))
    (hok : ∀ c ∈ (SendPushNotification config w body).2, w.errorOf c = none) :
    (SendPushNotification config w body).1 =
      ⟨200, [("message", "Push notification sent successfully")]⟩ ∧
    ∃ opts app client message,
      (SendPushNotification config w body).2 =
        [Call.NewApp opts, Call.Messaging app, Call.Send client message] ∧
      message.Token = req.Token ∧
      message.Notification = some ⟨req.Title, req.Body⟩ := by
  rw [SendPushNotification_of_decoded config w body req hdecode] at hok ⊢
  cases h1 : w.NewApp [pushOption config] with
  | some e1 =>
    have := hok (Call.NewApp [pushOption config]) (by simp [h1])
    simp [World.errorOf, h1] at this
  | none =>
    cases h2 : w.Messaging ⟨[pushOption config]⟩ with
    | some e2 =>
      have := hok (Call.Messaging ⟨[pushOption config]⟩) (by simp [h1, h2])
      simp [World.errorOf, h2] at this
    | none =>
      cases h3 : w.Send ⟨⟨[pushOption config]⟩⟩ (pushMessage req) with
      | error e3 =>
        have := hok (Call.Send ⟨⟨[pushOption config]⟩⟩ (pushMessage req)) (by simp [h1, h2, h3])
        simp [World.errorOf, h3] at this
      | ok id =>
        exact ⟨rfl, _, _, _, _, rfl, rfl, rfl⟩

/-- C5 at the scenario of the specification: body `token: abc, title: T, body: B`
with a valid provider credential. -/
theorem SendPushNotification_success_witness :
    BindJSONPush pushScenarioBody = (⟨"abc", "T", "B"⟩, none) ∧
    (SendPushNotification exampleConfig World.allSucceed pushScenarioBody).1 =
      ⟨200, [("message", "Push notification sent successfully")]⟩ ∧
    ∃ opts app client message,
      (SendPushNotification exampleConfig World.allSucceed pushScenarioBody).2 =
        [Call.NewApp opts, Call.Messaging app, Call.Send client message] ∧
      message.Token = "abc" ∧
      message.Notification = some ⟨"T", "B"⟩ :=
  ⟨by decide,
    SendPushNotification_success exampleConfig World.allSucceed pushScenarioBody ⟨"abc", "T", "B"⟩
      (by decide) (fun c _ => errorOf_allSucceed c)⟩

/-- C6 as stated fails: for the same decodable request, a failure of app
initialisation, of messaging-client creation and of the provider send give
three different response bodies (the status is 500 each time). -/
theorem push_failures_distinguished_by_step :
    BindJSONPush pushScenarioBody = (⟨"abc", "T", "B"⟩, none) ∧
    (SendPushNotification exampleConfig (World.newAppFails "e") pushScenarioBody).1 =
      ⟨500, [("error", "Failed to initialize Firebase app")]⟩ ∧
    (SendPushNotification exampleConfig (World.messagingFails "e") pushScenarioBody).1 =
      ⟨500, [("error", "Failed to initialize Firebase messaging client")]⟩ ∧
    (SendPushNotification exampleConfig (World.sendFails "e") pushScenarioBody).1 =
      ⟨500, [("error", "Failed to send push notification")]⟩ ∧
    (SendPushNotification exampleConfig (World.newAppFails "e") pushScenarioBody).1 ≠
      (SendPushNotification exampleConfig (World.sendFails "e") pushScenarioBody).1 ∧
    (SendPushNotification exampleConfig (World.messagingFails "e") pushScenarioBody).1 ≠
      (SendPushNotification exampleConfig (World.sendFails "e") pushScenarioBody).1 := by
  decide

/-- C6, amended: after a successful decode every failure of
`SendPushNotification` has status 500, and the whole response of two failing
runs is the same exactly when they fail at the same step (app initialisation,
messaging-client creation, provider send): the body names the step, never the
underlying error. -/
theorem push_failure_response_by_step (config : Config) (w₁ w₂ : World)
    (body : Body) (req : PushNotificationRequest) (hdecode : BindJSONPush body = (req, none))
    (c₁ c₂ : Call) (e₁ e₂ : GoError)
    (h₁ : c₁ ∈ (SendPushNotification config w₁ body).2) (hf₁ : w₁.errorOf c₁ = some e₁)
    (h₂ : c₂ ∈ (SendPushNotification config w₂ body).2) (hf₂ : w₂.errorOf c₂ = some e₂) :
    (SendPushNotification config w₁ body).1.status = 500 ∧
    (SendPushNotification config w₂ body).1.status = 500 ∧
    ((SendPushNotification config w₁ body).1 = (SendPushNotification config w₂ body).1 ↔
      c₁.step = c₂.step) := by
  have k₁ := SendPushNotification_failed_call config w₁ body req hdecode c₁ e₁ h₁ hf₁
  have k₂ := SendPushNotification_failed_call config w₂ body req hdecode c₂ e₂ h₂ hf₂
  rcases k₁ with ⟨s₁, r₁⟩ | ⟨s₁, r₁⟩ | ⟨s₁, r₁⟩ <;>
    rcases k₂ with ⟨s₂, r₂⟩ | ⟨s₂, r₂⟩ | ⟨s₂, r₂⟩ <;>
    simp [s₁, s₂, r₁, r₂]

/-- C6 amended, at a run failing in app initialisation and a run failing in
the provider send. -/
theorem push_failure_response_by_step_witness :
    (SendPushNotification exampleConfig (World.newAppFails "credentials not found")
        pushScenarioBody).1.status = 500 ∧
    (SendPushNotification exampleConfig (World.sendFails "connection reset")
        pushScenarioBody).1.status = 500 ∧
    ((SendPushNotification exampleConfig (World.newAppFails "credentials not found")
        pushScenarioBody).1 =
      (SendPushNotification exampleConfig (World.sendFails "connection reset")
        pushScenarioBody).1 ↔
      (Call.NewApp [pushOption exampleConfig]).step =
        (Call.Send ⟨⟨[pushOption exampleConfig]⟩⟩ (pushMessage ⟨"abc", "T", "B"⟩)).step) :=
  push_failure_response_by_step exampleConfig
    (World.newAppFails "credentials not found") (World.sendFails "connection reset")
    pushScenarioBody ⟨"abc", "T", "B"⟩ (by decide)
    (Call.NewApp [pushOption exampleConfig])
    (Call.Send ⟨⟨[pushOption exampleConfig]⟩⟩ (pushMessage ⟨"abc", "T", "B"⟩))
    "credentials not found" "connection reset"
    (by decide) rfl (by decide) rfl

/-- C7 as stated fails: a config.json holding the empty object, or an object
with only part of the members, does not have the shape the specification
gives, yet `loadConfig` returns no error, the absent members keep their zero
values, and `main` registers both routes and starts the server. -/
theorem loadConfig_accepts_missing_members :
    specConfigShape (.obj []) = false ∧
    loadConfig (.ok (.value (.obj []))) Config.zero = (Config.zero, none) ∧
    (main (.ok (.value (.obj [])))).routes =
      [⟨"POST", "/send-email", .SendEmail⟩, ⟨"POST", "/send-push", .SendPushNotification⟩] ∧
    (main (.ok (.value (.obj [])))).listen = some ":8080" ∧
    specConfigShape (.obj [("email", .obj [("smtp_host", .str "smtp.example.com")])]) = false ∧
    loadConfig (.ok (.value (.obj [("email", .obj [("smtp_host", .str "smtp.example.com")])])))
        Config.zero =
      (⟨⟨"smtp.example.com", 0, "", ""⟩, ⟨""⟩⟩, none) := by
  decide

/-- C7, amended: `loadConfig` returns an error exactly when config.json cannot
be opened, no JSON value can be read from it, or a value in it has a kind that
the member of `Config` it is decoded into does not accept (members that are
absent or null keep their zero value and are no error); whenever it returns an
error `main` registers no route and does not start the server, so no handler
runs and no external call is made. -/
theorem loadConfig_error_iff (file : Except GoError Body) :
    ((loadConfig file Config.zero).2.isSome = true ↔
      (∃ e, file = .error e) ∨ (∃ e, file = .ok (.invalid e)) ∨
        ∃ j, file = .ok (.value j) ∧ fitsConfig j = false) ∧
    ((loadConfig file Config.zero).2.isSome = true →
      (main file).routes = [] ∧ (main file).listen = none ∧
        ∀ (w : World) (reqs : List Request),
          (∀ r ∈ reqs, (main file).dispatch w r = none) ∧
            (main file).externalCalls w reqs = []) := by
  constructor
  · rcases file with e | (e | j)
    · simp [loadConfig]
    · simp [loadConfig]
    · simp [loadConfig, decodeConfig_error]
  · intro h
    have hm := main_of_loadConfig_error file h
    refine ⟨hm.1, hm.2, fun w reqs => ⟨?_, externalCalls_of_not_listening _ w reqs hm.2⟩⟩
    intro r _
    simp [Process.dispatch, hm.2]

/-- C7 amended, at a missing file and at a config.json whose `smtp_port` is a
string. -/
theorem loadConfig_error_iff_witness :
    (main (.error "open config.json: no such file or directory")).routes = [] ∧
    (main (.error "open config.json: no such file or directory")).listen = none ∧
    (loadConfig (.ok (.value (.obj [("email", .obj [("smtp_port", .str "587")])])))
      Config.zero).2.isSome = true ∧
    (main (.ok (.value (.obj [("email", .obj [("smtp_port", .str "587")])])))).listen = none ∧
    (main (.ok (.value (.obj [("email", .obj [("smtp_port", .str "587")])])))).externalCalls
      World.allSucceed [⟨"POST", "/send-email", emailScenarioBody⟩] = [] :=
  have h₁ := (loadConfig_error_iff (.error "open config.json: no such file or directory")).2
    (by decide)
  have h₂ := (loadConfig_error_iff
    (.ok (.value (.obj [("email", .obj [("smtp_port", .str "587")])])))).1.2
    (Or.inr (Or.inr ⟨_, rfl, by decide⟩))
  have h₃ := (loadConfig_error_iff
    (.ok (.value (.obj [("email", .obj [("smtp_port", .str "587")])])))).2 h₂
  ⟨h₁.1, h₁.2.1, h₂, h₃.2.1, (h₃.2.2 World.allSucceed _).2⟩

/-- C8: `SendEmail` validates nothing beyond decodability.  Every value of
`EmailRequest`, empty strings included, is the result of decoding some body,
and for every body decoding into it the handler does not answer 400, makes
the SMTP dial-and-send, and answers 200 or 500 according to whether that call
succeeds or fails. -/
theorem SendEmail_no_validation (config : Config) (w : World) (req : EmailRequest) :
    (∃ body, BindJSONEmail body = (req, none)) ∧
    ∀ body, BindJSONEmail body = (req, none) →
      (SendEmail config w body).1.status ≠ 400 ∧
      ∃ d m, (SendEmail config w body).2 = [Call.DialAndSend d m] ∧
        (SendEmail config w body).1 =
          if (w.DialAndSend d m).isNone then ⟨200, [("message", "Email sent successfully")]⟩
          else ⟨500, [("error", "Failed to send email")]⟩ := by
  constructor
  · exact ⟨.value (.obj [("to", .str req.To), ("subject", .str req.Subject),
      ("body", .str req.Body)]), rfl⟩
  · intro body hdecode
    rw [SendEmail_of_decoded config w body req hdecode]
    cases hw : w.DialAndSend (emailDialer config) (emailMessage config req) with
    | some e => exact ⟨by simp, _, _, rfl, by simp [hw]⟩
    | none => exact ⟨by simp, _, _, rfl, by simp [hw]⟩

/-- C8 at a request whose three fields are empty: it is not rejected, and the
answer is 500 because the dial-and-send fails. -/
theorem SendEmail_no_validation_witness :
    BindJSONEmail (.value (.obj [])) = (⟨"", "", ""⟩, none) ∧
    (SendEmail exampleConfig (World.smtpFails "no recipient") (.value (.obj []))).1.status ≠ 400 ∧
    ∃ d m, (SendEmail exampleConfig (World.smtpFails "no recipient") (.value (.obj []))).2 =
        [Call.DialAndSend d m] ∧
      (SendEmail exampleConfig (World.smtpFails "no recipient") (.value (.obj []))).1 =
        if ((World.smtpFails "no recipient").DialAndSend d m).isNone then
          ⟨200, [("message", "Email sent successfully")]⟩
        else ⟨500, [("error", "Failed to send email")]⟩ :=
  ⟨by decide,
    (SendEmail_no_validation exampleConfig (World.smtpFails "no recipient") ⟨"", "", ""⟩).2
      (.value (.obj [])) (by decide)⟩

/-- C9: `SendPushNotification` makes no external call when the body does not
decode.  When it decodes, the first call is the app initialisation with the
credentials-file path of the configuration, and it is the only one; the calls
after it are, in this order and each at most once, the messaging-client
creation and the provider send; every call but the last one made has
succeeded, so no step runs after a failed one. -/
theorem SendPushNotification_step_order (config : Config) (w : World) (body : Body) :
    ((BindJSONPush body).2.isSome = true → (SendPushNotification config w body).2 = []) ∧
    ((BindJSONPush body).2 = none →
      ∃ rest, (SendPushNotification config w body).2 =
          Call.NewApp [ClientOption.WithCredentialsFile config.Firebase.CredentialsFile] ::
            rest ∧
        rest.map Call.step <+: [Step.messagingClient, Step.send] ∧
        (SendPushNotification config w body).2.countP (fun c => decide (c.step = .newApp)) = 1 ∧
        (SendPushNotification config w body).2.countP (fun c => decide (c.step = .send)) ≤ 1 ∧
        ∀ c ∈ (SendPushNotification config w body).2.dropLast, w.errorOf c = none) := by
  constructor
  · intro h
    rw [SendPushNotification_of_bind_error config w body h]
  · intro h
    have hdecode : BindJSONPush body = ((BindJSONPush body).1, none) := by
      rw [← h]
    rw [SendPushNotification_of_decoded config w body _ hdecode]
    cases h1 : w.NewApp [pushOption config] with
    | some e1 =>
      exact ⟨[], rfl, ⟨_, rfl⟩, by simp [Call.step], by simp [Call.step], by simp⟩
    | none =>
      cases h2 : w.Messaging ⟨[pushOption config]⟩ with
      | some e2 =>
        refine ⟨[Call.Messaging ⟨[pushOption config]⟩], rfl, ⟨[Step.send], rfl⟩, by simp [Call.step],
          by simp [Call.step], ?_⟩
        intro c hc
        simp at hc
        subst hc
        simpa [World.errorOf] using h1
      | none =>
        cases h3 : w.Send ⟨⟨[pushOption config]⟩⟩ (pushMessage (BindJSONPush body).1) with
        | error e3 =>
          refine ⟨[Call.Messaging ⟨[pushOption config]⟩,
            Call.Send ⟨⟨[pushOption config]⟩⟩ (pushMessage (BindJSONPush body).1)], rfl,
            ⟨[], rfl⟩, by simp [Call.step], by simp [Call.step], ?_⟩
          intro c hc
          simp at hc
          rcases hc with hc | hc
          · subst hc; simpa [World.errorOf] using h1
          · subst hc; simpa [World.errorOf] using h2
        | ok id =>
          refine ⟨[Call.Messaging ⟨[pushOption config]⟩,
            Call.Send ⟨⟨[pushOption config]⟩⟩ (pushMessage (BindJSONPush body).1)], rfl,
            ⟨[], rfl⟩, by simp [Call.step], by simp [Call.step], ?_⟩
          intro c hc
          simp at hc
          rcases hc with hc | hc
          · subst hc; simpa [World.errorOf] using h1
          · subst hc; simpa [World.errorOf] using h2

/-- C9 at the scenario body when the messaging client cannot be created: the
calls are the app initialisation and the client creation, and no send. -/
theorem SendPushNotification_step_order_witness :
    (BindJSONPush pushScenarioBody).2 = none ∧
    (SendPushNotification exampleConfig (World.messagingFails "invalid credentials")
        pushScenarioBody).2 =
      [Call.NewApp [ClientOption.WithCredentialsFile "serviceAccount.json"],
        Call.Messaging ⟨[ClientOption.WithCredentialsFile "serviceAccount.json"]⟩] ∧
    ∃ rest, (SendPushNotification exampleConfig (World.messagingFails "invalid credentials")
          pushScenarioBody).2 =
        Call.NewApp [ClientOption.WithCredentialsFile exampleConfig.Firebase.CredentialsFile] ::
          rest ∧
      rest.map Call.step <+: [Step.messagingClient, Step.send] ∧
      (SendPushNotification exampleConfig (World.messagingFails "invalid credentials")
        pushScenarioBody).2.countP (fun c => decide (c.step = .newApp)) = 1 ∧
      (SendPushNotification exampleConfig (World.messagingFails "invalid credentials")
        pushScenarioBody).2.countP (fun c => decide (c.step = .send)) ≤ 1 ∧
      ∀ c ∈ (SendPushNotification exampleConfig (World.messagingFails "invalid credentials")
        pushScenarioBody).2.dropLast, (World.messagingFails "invalid credentials").errorOf c = none :=
  ⟨by decide, by decide,
    (SendPushNotification_step_order exampleConfig (World.messagingFails "invalid credentials")
      pushScenarioBody).2 (by decide)⟩

/-- C10: for a request body that decodes, `SendEmail` calls the SMTP
dial-and-send exactly once, whether it succeeds or fails, through a dialer
built from the SMTP host, SMTP port, username and password of the configuration;
the username of the dialer is the value of the From header of the message. -/
theorem SendEmail_dials_once (config : Config) (w : World) (body : Body) (req : EmailRequest)
    (hdecode : BindJSONEmail body = (req, none)) :
    ∃ d m, (SendEmail config w body).2 = [Call.DialAndSend d m] ∧
      d = ⟨config.Email.SMTPHost, config.Email.SMTPPort, config.Email.Username,
        config.Email.Password⟩ ∧
      m.GetHeader "From" = [d.Username] ∧
      (SendEmail config w body).2.countP (fun c => decide (c.step = .dialAndSend)) = 1 := by
  rw [SendEmail_of_decoded config w body req hdecode]
  have hm := (emailMessage_headers config req).1
  cases hw : w.DialAndSend (emailDialer config) (emailMessage config req) with
  | some e => exact ⟨_, _, rfl, rfl, hm, by simp [Call.step]⟩
  | none => exact ⟨_, _, rfl, rfl, hm, by simp [Call.step]⟩

/-- C10 at the scenario body, once with a relay that accepts the message and
once with one that refuses the connection. -/
theorem SendEmail_dials_once_witness :
    (∃ d m, (SendEmail exampleConfig World.allSucceed emailScenarioBody).2 =
        [Call.DialAndSend d m] ∧
      d = ⟨"smtp.example.com", 587, "noreply@example.com", "secret"⟩ ∧
      m.GetHeader "From" = [d.Username] ∧
      (SendEmail exampleConfig World.allSucceed emailScenarioBody).2.countP
        (fun c => decide (c.step = .dialAndSend)) = 1) ∧
    (∃ d m, (SendEmail exampleConfig (World.smtpFails "dial tcp: connection refused")
          emailScenarioBody).2 = [Call.DialAndSend d m] ∧
      d = ⟨"smtp.example.com", 587, "noreply@example.com", "secret"⟩ ∧
      m.GetHeader "From" = [d.Username] ∧
      (SendEmail exampleConfig (World.smtpFails "dial tcp: connection refused")
        emailScenarioBody).2.countP (fun c => decide (c.step = .dialAndSend)) = 1) :=
  ⟨SendEmail_dials_once exampleConfig World.allSucceed emailScenarioBody
      ⟨"a@b.com", "Hi", "Test"⟩ (by decide),
    SendEmail_dials_once exampleConfig (World.smtpFails "dial tcp: connection refused")
      emailScenarioBody ⟨"a@b.com", "Hi", "Test"⟩ (by decide)⟩

end NotificationService
